import Mathlib

/-!
Shallow embedding of `src/lsopentmf.c` (the `lsopentmf` utility of
opentmf-utils) and proofs about its behaviour.

Strings printed by the program are modelled as `String` / `List Char`;
`printf` output to standard output is modelled by string concatenation.
Each `fprintf(stderr, ...)` call in the program emits exactly one
newline-terminated line; standard error is therefore modelled as a list of
structured messages (`Msg`) together with a rendering function
(`Msg.render`) that produces the exact text of each line (without the
trailing newline).  Calls into the external `opentmf` library are modelled
by an oracle (`Lib`, `DriverB`, `DeviceB`) giving the status code returned
by each call and the info records behind the returned handles.
-/

namespace LsOpenTmf

/-! ### `print_multi_line` (lsopentmf.c lines 48-69)

`breakAtNl` models `strchr(text, '\n')` together with the pointer
arithmetic of the loop body: it splits the text into the first segment up
to and including the first newline, and the rest.  `pmlSegs` is the
`do ... while(new_line = strchr(text, '\n'))` loop followed by the final
`if(text[0] != '\0')` print of the last unterminated segment; the loop
consumes one newline per iteration, so the number of newlines in the text
serves as the structural recursion measure. -/

def indent2 : List Char := [' ', ' ']

def breakAtNl : List Char → Option (List Char × List Char)
  | [] => none
  | c :: rest =>
    if c = '\n' then some ([c], rest)
    else
      match breakAtNl rest with
      | some (seg, rem) => some (c :: seg, rem)
      | none => none

def pmlSegs : Nat → List Char → List Char
  | 0, text => if text = [] then [] else indent2 ++ text ++ ['\n']
  | n + 1, text =>
    match breakAtNl text with
    | some (seg, rem) => indent2 ++ seg ++ pmlSegs n rem
    | none => if text = [] then [] else indent2 ++ text ++ ['\n']

def pmlLoop (text : List Char) : List Char :=
  pmlSegs (text.count '\n') text

def print_multi_line (label text : List Char) : List Char :=
  match breakAtNl text with
  | some _ => label ++ [':', '\n'] ++ pmlLoop text
  | none => label ++ [':', ' '] ++ text ++ ['\n']

theorem breakAtNl_none_iff : ∀ (t : List Char),
    breakAtNl t = none ↔ '\n' ∉ t := by
  intro t
  induction t with
  | nil => simp [breakAtNl]
  | cons c rest ih =>
    by_cases hc : c = '\n'
    · subst hc; simp [breakAtNl]
    · rw [breakAtNl, if_neg hc]
      cases hb : breakAtNl rest with
      | none =>
        have hnm : '\n' ∉ rest := (ih).mp hb
        have hne : ¬ '\n' = c := fun e => hc e.symm
        simp [List.mem_cons, hnm, hne]
      | some p =>
        have hmem : '\n' ∈ rest := by
          by_contra hnm
          rw [(ih).mpr hnm] at hb
          exact Option.noConfusion hb
        simp [List.mem_cons, hmem]

theorem breakAtNl_rem_lt : ∀ {t s r : List Char},
    breakAtNl t = some (s, r) → r.length < t.length := by
  intro t
  induction t with
  | nil => intro s r h; exact Option.noConfusion h
  | cons c rest ih =>
    intro s r h
    by_cases hc : c = '\n'
    · rw [breakAtNl, if_pos hc] at h
      injection h with h'
      injection h' with h1 h2
      subst h2
      simp
    · rw [breakAtNl, if_neg hc] at h
      cases hb : breakAtNl rest with
      | none => rw [hb] at h; exact Option.noConfusion h
      | some p =>
        obtain ⟨s', r'⟩ := p
        rw [hb] at h
        injection h with h'
        injection h' with h1 h2
        subst h2
        have := ih (s := s') (r := r') hb
        simp
        omega

theorem breakAtNl_count : ∀ {t s r : List Char},
    breakAtNl t = some (s, r) → t.count '\n' = r.count '\n' + 1 := by
  intro t
  induction t with
  | nil => intro s r h; exact Option.noConfusion h
  | cons c rest ih =>
    intro s r h
    by_cases hc : c = '\n'
    · rw [breakAtNl, if_pos hc] at h
      injection h with h'
      injection h' with h1 h2
      subst h2
      subst hc
      simp [List.count_cons]
    · rw [breakAtNl, if_neg hc] at h
      cases hb : breakAtNl rest with
      | none => rw [hb] at h; exact Option.noConfusion h
      | some p =>
        obtain ⟨s', r'⟩ := p
        rw [hb] at h
        injection h with h'
        injection h' with h1 h2
        subst h2
        have := ih (s := s') (r := r') hb
        have hne : ¬ '\n' = c := fun e => hc e.symm
        rw [List.count_cons]
        simp [hne, hc]
        omega

theorem pmlLoop_of_none {t : List Char} (h : breakAtNl t = none) :
    pmlLoop t = if t = [] then [] else indent2 ++ t ++ ['\n'] := by
  have h0 : t.count '\n' = 0 :=
    List.count_eq_zero.mpr ((breakAtNl_none_iff t).mp h)
  rw [pmlLoop, h0, pmlSegs]

theorem pmlLoop_of_some {t s r : List Char} (h : breakAtNl t = some (s, r)) :
    pmlLoop t = indent2 ++ s ++ pmlLoop r := by
  rw [pmlLoop, breakAtNl_count h, pmlSegs, h, pmlLoop]

/-! Spec-side rendering, phrased after the specification's words: split the
text into its complete lines (each including its terminating break) and a
final line without a trailing break; indent every complete line by two
spaces; if the final unterminated line is nonempty, indent it by two spaces
as well and append a line break. -/

def splitLines : List Char → List (List Char) × List Char
  | [] => ([], [])
  | c :: rest =>
    if c = '\n' then (['\n'] :: (splitLines rest).1, (splitLines rest).2)
    else
      match splitLines rest with
      | (l :: ls, p) => ((c :: l) :: ls, p)
      | ([], p) => ([], c :: p)

def specIndented (text : List Char) : List Char :=
  ((splitLines text).1.map (fun l => indent2 ++ l)).flatten ++
    (if (splitLines text).2 = [] then []
     else indent2 ++ (splitLines text).2 ++ ['\n'])

theorem splitLines_of_break_some : ∀ {t s r : List Char},
    breakAtNl t = some (s, r) →
    splitLines t = (s :: (splitLines r).1, (splitLines r).2) := by
  intro t
  induction t with
  | nil => intro s r h; exact Option.noConfusion h
  | cons c rest ih =>
    intro s r h
    by_cases hc : c = '\n'
    · rw [breakAtNl, if_pos hc] at h
      injection h with h'
      injection h' with h1 h2
      subst h2
      subst hc
      rw [← h1]
      simp [splitLines]
    · rw [breakAtNl, if_neg hc] at h
      cases hb : breakAtNl rest with
      | none => rw [hb] at h; exact Option.noConfusion h
      | some p =>
        obtain ⟨s', r'⟩ := p
        rw [hb] at h
        injection h with h'
        injection h' with h1 h2
        subst h2
        have hrec := ih (s := s') (r := r') hb
        rw [← h1]
        simp [splitLines, hc, hrec]

theorem splitLines_of_break_none : ∀ {t : List Char},
    breakAtNl t = none → splitLines t = ([], t) := by
  intro t
  induction t with
  | nil => intro _; simp [splitLines]
  | cons c rest ih =>
    intro h
    by_cases hc : c = '\n'
    · rw [breakAtNl, if_pos hc] at h; exact Option.noConfusion h
    · rw [breakAtNl, if_neg hc] at h
      cases hb : breakAtNl rest with
      | none => simp [splitLines, hc, ih hb]
      | some p => rw [hb] at h; exact Option.noConfusion h

theorem pmlLoop_eq_specIndented : ∀ (n : Nat) (t : List Char),
    t.length ≤ n → pmlLoop t = specIndented t := by
  intro n
  induction n with
  | zero =>
    intro t ht
    have : t = [] := List.length_eq_zero.mp (Nat.le_zero.mp ht)
    subst this
    simp [pmlLoop, pmlSegs, specIndented, splitLines]
  | succ n ih =>
    intro t ht
    cases h : breakAtNl t with
    | none =>
      rw [pmlLoop_of_none h, specIndented, splitLines_of_break_none h]
      by_cases he : t = [] <;> simp [he]
    | some p =>
      obtain ⟨s, r⟩ := p
      have hlt := breakAtNl_rem_lt h
      have hr : pmlLoop r = specIndented r := ih r (by omega)
      rw [pmlLoop_of_some h, hr, specIndented, specIndented,
        splitLines_of_break_some h]
      simp [List.append_assoc]

/-- C4: multi-line rendering of a label/text pair.  If the text contains no
line break, the output is the single line `Label: text`.  Otherwise the
output is `Label:` on its own line followed by every line of the text
(including its terminating break) indented by two spaces, with a final
unterminated segment also indented and given a line break; in particular
the text `a\nb` yields `Label:\n  a\n  b\n`. -/
theorem c4_multi_line_rendering : ∀ (label text : List Char),
    ('\n' ∉ text →
      print_multi_line label text = label ++ [':', ' '] ++ text ++ ['\n']) ∧
    ('\n' ∈ text →
      print_multi_line label text = label ++ [':', '\n'] ++ specIndented text) ∧
    print_multi_line "Label".data "a\nb".data = "Label:\n  a\n  b\n".data := by
  intro label text
  refine ⟨?_, ?_, by decide⟩
  · intro hn
    rw [print_multi_line, (breakAtNl_none_iff text).mpr hn]
  · intro hn
    cases h : breakAtNl text with
    | none => exact absurd ((breakAtNl_none_iff text).mp h) (by simp [hn])
    | some p =>
      rw [print_multi_line]
      simp only [h]
      rw [pmlLoop_eq_specIndented text.length text (Nat.le_refl _)]

/-- Witness for C4 at concrete inputs. -/
theorem c4_multi_line_rendering_witness :
    print_multi_line "L".data "x".data = "L".data ++ [':', ' '] ++ "x".data ++ ['\n'] ∧
    print_multi_line "Authors".data "a\nb\n".data =
      "Authors".data ++ [':', '\n'] ++ specIndented "a\nb\n".data :=
  ⟨(c4_multi_line_rendering "L".data "x".data).1 (by decide),
   (c4_multi_line_rendering "Authors".data "a\nb\n".data).2.1 (by decide)⟩

/-! ### Data model

Info records exposed by the library (read-only, no failure), and the
oracle describing the status code each library call returns together with
the driver/device lists it yields.  `OPENTMF_SUCCESS` is status `0`;
`EXIT_SUCCESS`/`EXIT_FAILURE` are `0`/`1`. -/

structure Version where
  major : Nat
  minor : Nat
  patch : Nat
  extra : String
  deriving DecidableEq

structure DriverInfo where
  name : String
  version : Version
  description : String
  authors : String
  license : String
  non_free : Bool
  deriving DecidableEq

structure DeviceInfo where
  name : String
  serial : String
  deriving DecidableEq

/-- A device as the library presents it: its path in the device list, the
status `opentmf_open` returns for its URL, and its info record. -/
structure DeviceB where
  path : String
  openStatus : Int
  info : DeviceInfo
  deriving DecidableEq

/-- A driver as the library presents it: its name in the driver list, the
status `opentmf_open` returns for its URL, its info record, and the
behaviour of its device-list calls. -/
structure DriverB where
  name : String
  openStatus : Int
  info : DriverInfo
  devListStatus : Int
  devices : List DeviceB
  freeDevListStatus : Int
  deriving DecidableEq

/-- The library oracle: statuses of the context-level calls, the driver
list, and `opentmf_get_status_str`. -/
structure Lib where
  initStatus : Int
  getListStatus : Int
  drivers : List DriverB
  freeListStatus : Int
  exitStatus : Int
  statusStr : Int → String

/-! ### Output formatting (lsopentmf.c lines 144-171 and 190-208) -/

/-- The version text printed by `printf("%u.%u")` followed by the
conditional `printf(".%u")` when `patch > 0` (lines 153-155 and 161-163). -/
def verString (v : Version) : String :=
  toString v.major ++ "." ++ toString v.minor ++
    (if v.patch > 0 then "." ++ toString v.patch else "")

/-- Standard-output text produced for one successfully opened driver by the
`switch(verbose)` at lines 146-171.  (The C switch has no `default`
branch, so any other verbosity value prints nothing; the parsed verbosity
never exceeds 2.) -/
def driverEntry (verbose : Nat) (info : DriverInfo) : String :=
  match verbose with
  | 0 => info.name ++ "\n"
  | 1 =>
    info.name ++ "\t" ++ verString info.version ++ info.version.extra ++ "\t" ++
      info.license ++ "\t" ++ (if info.non_free then "non-free" else "free") ++ "\n"
  | 2 =>
    "Driver: " ++ info.name ++ "\n" ++
      "Version: " ++ verString info.version ++ info.version.extra ++ "\n" ++
      String.mk (print_multi_line "Description".data info.description.data) ++
      String.mk (print_multi_line "Authors".data info.authors.data) ++
      "License: " ++ info.license ++ "\n" ++
      "Free: " ++ (if info.non_free then "no" else "yes") ++ "\n" ++ "\n"
  | _ + 3 => ""

/-- Standard-output text produced for one successfully opened device by the
`switch(verbose)` at lines 192-208. -/
def deviceEntry (verbose : Nat) (path : String) (dinfo : DeviceInfo) : String :=
  match verbose with
  | 0 => "  " ++ path ++ "\n"
  | 1 => "  " ++ path ++ "\t" ++ dinfo.name ++ "\t" ++ dinfo.serial ++ "\n"
  | 2 =>
    "  Path: " ++ path ++ "\n" ++ "  Name: " ++ dinfo.name ++ "\n" ++
      "  Serial: " ++ dinfo.serial ++ "\n" ++ "\n"
  | _ + 3 => ""

/-! ### Standard error and library-call events -/

/-- One `fprintf(stderr, ...)` line.  `getoptDiag` stands for the
diagnostic that `getopt_long` itself (libc, outside this repository)
writes on an unrecognized option; its wording is approximated. -/
inductive Msg where
  | initErr (code : Int)
  | getDrvListErr (code : Int)
  | openDrvErr (name : String) (code : Int)
  | getDevListErr (code : Int)
  | openDevErr (path : String) (code : Int)
  | freeDevListErr (code : Int)
  | freeDrvListErr (code : Int)
  | finalErr (code : Int)
  | getoptDiag (s : String)
  deriving DecidableEq

/-- The exact text of each standard-error line (without the trailing
newline), following the program's `fprintf` format strings. -/
def Msg.render (ss : Int → String) : Msg → String
  | .initErr c => "Error initializing library: " ++ ss c ++ " (" ++ toString c ++ ")"
  | .getDrvListErr c => "Error getting driver list: " ++ ss c ++ " (" ++ toString c ++ ")"
  | .openDrvErr n c => "Error opening driver `" ++ n ++ "`: " ++ ss c ++ " (" ++ toString c ++ ")"
  | .getDevListErr c => "Error getting device list: " ++ ss c ++ " (" ++ toString c ++ ")"
  | .openDevErr p c => "Error opening device `" ++ p ++ "`: " ++ ss c ++ " (" ++ toString c ++ ")"
  | .freeDevListErr c => "Error freeing device list: " ++ ss c ++ " (" ++ toString c ++ ")"
  | .freeDrvListErr c => "Error freeing driver list: " ++ ss c ++ " (" ++ toString c ++ ")"
  | .finalErr c => "Error finalizing library: " ++ ss c ++ " (" ++ toString c ++ ")"
  | .getoptDiag s => "lsopentmf: invalid option " ++ s

/-- Library calls observable during the enumeration: open/close of the
driver at list index `i` (and of the device at index `j` under it), and
the calls freeing the lists.  `ok` records whether the open succeeded. -/
inductive Ev where
  | openDrv (i : Nat) (ok : Bool)
  | closeDrv (i : Nat)
  | openDev (i : Nat) (j : Nat) (ok : Bool)
  | closeDev (i : Nat) (j : Nat)
  | freeDevList (i : Nat)
  | freeDrvList
  deriving DecidableEq

/-- Accumulated effects of a program fragment: standard output, standard
error lines, and library-call events, each in order of occurrence. -/
structure Eff where
  out : String
  msgs : List Msg
  evs : List Ev

def Eff.nil : Eff := ⟨"", [], []⟩

def Eff.seq (a b : Eff) : Eff := ⟨a.out ++ b.out, a.msgs ++ b.msgs, a.evs ++ b.evs⟩

@[simp] theorem Eff.seq_out (a b : Eff) : (a.seq b).out = a.out ++ b.out := rfl
@[simp] theorem Eff.seq_msgs (a b : Eff) : (a.seq b).msgs = a.msgs ++ b.msgs := rfl
@[simp] theorem Eff.seq_evs (a b : Eff) : (a.seq b).evs = a.evs ++ b.evs := rfl
@[simp] theorem Eff.nil_out : Eff.nil.out = "" := rfl
@[simp] theorem Eff.nil_msgs : Eff.nil.msgs = [] := rfl
@[simp] theorem Eff.nil_evs : Eff.nil.evs = [] := rfl

/-! ### The enumeration loop (lsopentmf.c lines 115-249) -/

/-- Handling of the device at index `j` of the device list of the driver at
index `i` (lines 185-215): the device URL is built, then opened; on
success the device entry is printed and the handle closed, on failure an
error line is written. -/
def deviceStep (verbose : Nat) (i j : Nat) (dev : DeviceB) : Eff :=
  if dev.openStatus = 0 then
    ⟨deviceEntry verbose dev.path dev.info, [], [.openDev i j true, .closeDev i j]⟩
  else
    ⟨"", [.openDevErr dev.path dev.openStatus], [.openDev i j false]⟩

/-- The `while(*device)` loop at lines 183-216, with `j` the index of the
first remaining device. -/
def deviceLoop (verbose : Nat) (i : Nat) : Nat → List DeviceB → Eff
  | _, [] => Eff.nil
  | j, dev :: rest => (deviceStep verbose i j dev).seq (deviceLoop verbose i (j + 1) rest)

/-- The `if(show_devices)` block at lines 173-223: get the device list; on
success run the device loop and then free the device list (reporting a
failure of the free); on failure report and skip. -/
def devicesPart (verbose : Nat) (i : Nat) (d : DriverB) : Eff :=
  if d.devListStatus = 0 then
    (deviceLoop verbose i 0 d.devices).seq
      ⟨"", (if d.freeDevListStatus = 0 then [] else [.freeDevListErr d.freeDevListStatus]),
        [.freeDevList i]⟩
  else ⟨"", [.getDevListErr d.devListStatus], []⟩

/-- Handling of the driver at index `i` of the driver list (lines
130-229): build the URL and open it; on success print the driver entry,
optionally enumerate devices, and close the handle; on failure write an
error line. -/
def driverStep (verbose : Nat) (sd : Bool) (i : Nat) (d : DriverB) : Eff :=
  if d.openStatus = 0 then
    (⟨driverEntry verbose d.info, [], [.openDrv i true]⟩ : Eff).seq
      ((if sd then devicesPart verbose i d else Eff.nil).seq ⟨"", [], [.closeDrv i]⟩)
  else ⟨"", [.openDrvErr d.name d.openStatus], [.openDrv i false]⟩

/-- The `while(*driver_name)` loop at lines 130-230, with `i` the index of
the first remaining driver. -/
def driverLoop (verbose : Nat) (sd : Bool) : Nat → List DriverB → Eff
  | _, [] => Eff.nil
  | i, d :: rest => (driverStep verbose sd i d).seq (driverLoop verbose sd (i + 1) rest)

/-- `main` after option parsing (lines 115-249): init, get the driver
list, run the loop, free the list, finalize; returns the accumulated
effects and the exit status. -/
def mainBody (verbose : Nat) (sd : Bool) (lib : Lib) : Eff × Nat :=
  if lib.initStatus = 0 then
    let body : Eff × Nat :=
      if lib.getListStatus = 0 then
        ((driverLoop verbose sd 0 lib.drivers).seq
          ⟨"",
            (if lib.freeListStatus = 0 then [] else [.freeDrvListErr lib.freeListStatus]),
            [.freeDrvList]⟩, 0)
      else ((⟨"", [.getDrvListErr lib.getListStatus], []⟩ : Eff), 1)
    if lib.exitStatus = 0 then body
    else (body.1.seq ⟨"", [.finalErr lib.exitStatus], []⟩, 1)
  else ((⟨"", [.initErr lib.initStatus], []⟩ : Eff), 1)

/-! ### C3 and C9: the verbosity-1 line and the version string -/

/-- A concrete driver info record with a nonempty version extra label. -/
def infoC3 : DriverInfo :=
  ⟨"drv", ⟨1, 2, 3, "-rc1"⟩, "d", "a", "GPL-2.0", false⟩

/-- C3 counterexample: at verbosity 1 the printed line does NOT separate
the version string from the version extra label by a tab; for a driver
with version `1.2.3` and extra `-rc1` the claimed five-field tab-separated
line differs from what the program prints. -/
theorem c3_extra_not_tab_separated :
    ¬ driverEntry 1 infoC3 =
        infoC3.name ++ "\t" ++ verString infoC3.version ++ "\t" ++
          infoC3.version.extra ++ "\t" ++ infoC3.license ++ "\t" ++ "free" ++ "\n" := by
  decide

/-- C3 amended: at verbosity 1 each successfully opened driver is printed
as one line holding four tab-separated fields: the name; the version
string with the version extra label appended directly to it (no
separator); the license; and the word `free` or `non-free`. -/
theorem c3_verbose1_line_format : ∀ (info : DriverInfo),
    driverEntry 1 info =
      info.name ++ "\t" ++ verString info.version ++ info.version.extra ++ "\t" ++
        info.license ++ "\t" ++ (if info.non_free then "non-free" else "free") ++ "\n" ∧
    driverEntry 1 infoC3 = "drv\t1.2.3-rc1\tGPL-2.0\tfree\n" :=
  fun _ => ⟨rfl, by decide⟩

/-- C9: the printed version string omits the patch segment exactly when
the patch number is zero, and the version string rendered this way is what
appears in the output at both verbosity level 1 and verbosity level 2. -/
theorem c9_patch_omission : ∀ (v : Version) (info : DriverInfo),
    (v.patch = 0 → verString v = toString v.major ++ "." ++ toString v.minor) ∧
    (v.patch ≠ 0 →
      verString v =
        toString v.major ++ "." ++ toString v.minor ++ "." ++ toString v.patch) ∧
    (∃ t, driverEntry 1 info = info.name ++ "\t" ++ verString info.version ++ t) ∧
    (∃ t, driverEntry 2 info =
      "Driver: " ++ info.name ++ "\n" ++ "Version: " ++ verString info.version ++ t) := by
  intro v info
  refine ⟨?_, ?_, ?_, ?_⟩
  · intro h
    simp [verString, h]
  · intro h
    simp [verString, Nat.pos_of_ne_zero h, String.append_assoc]
  · exact ⟨info.version.extra ++ "\t" ++ info.license ++ "\t" ++
      (if info.non_free then "non-free" else "free") ++ "\n", by
        simp [driverEntry, String.append_assoc]⟩
  · exact ⟨info.version.extra ++ "\n" ++
      String.mk (print_multi_line "Description".data info.description.data) ++
      String.mk (print_multi_line "Authors".data info.authors.data) ++
      "License: " ++ info.license ++ "\n" ++
      "Free: " ++ (if info.non_free then "no" else "yes") ++ "\n" ++ "\n", by
        simp [driverEntry, String.append_assoc]⟩

/-- Witness for C9 at the specification's example versions. -/
theorem c9_patch_omission_witness :
    verString ⟨1, 2, 0, ""⟩ = toString (1 : Nat) ++ "." ++ toString (2 : Nat) ∧
    verString ⟨1, 2, 3, ""⟩ =
      toString (1 : Nat) ++ "." ++ toString (2 : Nat) ++ "." ++ toString (3 : Nat) :=
  ⟨(c9_patch_omission ⟨1, 2, 0, ""⟩ infoC3).1 rfl,
   (c9_patch_omission ⟨1, 2, 3, ""⟩ infoC3).2.1 (by decide)⟩

/-! ### C6: a failure to finalize the library forces a failure exit -/

/-- C6: if `opentmf_exit` fails (and it is reached, i.e. initialization
succeeded), the finalization error line is printed to standard error and
the exit status is `EXIT_FAILURE`, whatever happened in between. -/
theorem c6_finalize_failure : ∀ (verbose : Nat) (sd : Bool) (lib : Lib),
    lib.initStatus = 0 → lib.exitStatus ≠ 0 →
    (mainBody verbose sd lib).2 = 1 ∧
    Msg.finalErr lib.exitStatus ∈ (mainBody verbose sd lib).1.msgs ∧
    ("Error finalizing library: " ++ lib.statusStr lib.exitStatus ++ " (" ++
        toString lib.exitStatus ++ ")")
      ∈ (mainBody verbose sd lib).1.msgs.map (Msg.render lib.statusStr) := by
  intro vb sd lib h0 he
  have h2 : Msg.finalErr lib.exitStatus ∈ (mainBody vb sd lib).1.msgs := by
    by_cases hg : lib.getListStatus = 0 <;> simp [mainBody, h0, he, hg]
  refine ⟨by simp [mainBody, h0, he], h2, ?_⟩
  have := List.mem_map_of_mem (Msg.render lib.statusStr) h2
  simpa [Msg.render] using this

/-- A concrete library oracle whose finalization fails. -/
def libC6 : Lib := ⟨0, 0, [], 0, -1, fun _ => "failure"⟩

/-- Witness for C6 at a concrete library oracle. -/
theorem c6_finalize_failure_witness :
    (mainBody 0 false libC6).2 = 1 ∧
    Msg.finalErr libC6.exitStatus ∈ (mainBody 0 false libC6).1.msgs ∧
    ("Error finalizing library: " ++ libC6.statusStr libC6.exitStatus ++ " (" ++
        toString libC6.exitStatus ++ ")")
      ∈ (mainBody 0 false libC6).1.msgs.map (Msg.render libC6.statusStr) :=
  c6_finalize_failure 0 false libC6 rfl (by decide)

/-! ### Option parsing (lsopentmf.c lines 27, 34-46, 71-113)

`getopt_long` with optstring `"dvhV"` and the long options of lines 73-79
is modelled by first turning the argument vector into the stream of option
characters `getopt_long` would return (`argEvents`), then folding the
program's `switch` over that stream (`procOpts`).  GNU argument
permutation means non-option words are skipped and scanning continues;
`--` ends option scanning; a lone `-` counts as a non-option word; a token
`-abc` yields one option character per letter.  (Abbreviated long options
are not modelled; no claim concerns them.) -/

def VERBOSE_MAX : Nat := 2

/-- The usage text of `print_help` (lines 34-46), printed via `printf`. -/
def helpText : String :=
  "Usage: lsopentmf [options]\nList OpenTMF drivers\n  -d, --devices\n    Show available devices per driver\n  -v, --verbose\n    Show more driver details, may be given multiple times\n  -h, --help\n    Show usage and help\n  -V, --version\n    Show program version\n"

/-- The output of `print_version` (lines 29-32); `PACKAGE_VERSION` is a
build-time macro, passed in as `pv`. -/
def versionText (pv : String) : String :=
  "lsopentmf (opentmf-utils) " ++ pv ++ "\n"

inductive OptEv where
  | d | v | h | V
  | unknown (s : String)
  deriving DecidableEq

def charEv (c : Char) : OptEv :=
  if c = 'd' then .d
  else if c = 'v' then .v
  else if c = 'h' then .h
  else if c = 'V' then .V
  else .unknown (String.mk ['-', c])

def longEvent (a : String) : OptEv :=
  if a = "--devices" then .d
  else if a = "--verbose" then .v
  else if a = "--help" then .h
  else if a = "--version" then .V
  else .unknown a

inductive TokClass where
  | stop
  | opts (evs : List OptEv)
  | skip
  deriving DecidableEq

/-- How `getopt_long` treats one argument word: `--` stops scanning, a
word starting with `--` is a long option, `-` followed by letters is a
cluster of short options, anything else is a non-option word. -/
def classify (a : String) : TokClass :=
  match a.data with
  | c :: c2 :: cs =>
    if c = '-' then
      if c2 = '-' then
        match cs with
        | [] => .stop
        | _ :: _ => .opts [longEvent a]
      else .opts ((c2 :: cs).map charEv)
    else .skip
  | _ => .skip

def argEvents : List String → List OptEv
  | [] => []
  | a :: rest =>
    match classify a with
    | .stop => []
    | .opts evs => evs ++ argEvents rest
    | .skip => argEvents rest

theorem classify_eq (a : String) :
    classify a =
      match a.data with
      | c :: c2 :: cs =>
        if c = '-' then
          if c2 = '-' then
            match cs with
            | [] => TokClass.stop
            | _ :: _ => TokClass.opts [longEvent a]
          else TokClass.opts ((c2 :: cs).map charEv)
        else TokClass.skip
      | _ => TokClass.skip := rfl

theorem argEvents_cons (a : String) (rest : List String) :
    argEvents (a :: rest) =
      match classify a with
      | .stop => []
      | .opts evs => evs ++ argEvents rest
      | .skip => argEvents rest := rfl

theorem classify_skip_of_not_dash (w : String) (hw : w.data.head? ≠ some '-') :
    classify w = .skip := by
  rw [classify_eq]
  cases hd : w.data with
  | nil => rfl
  | cons c cs =>
    have hc : ¬c = '-' := by
      intro he
      exact hw (by rw [hd, he]; rfl)
    cases cs with
    | nil => rfl
    | cons c2 cs2 => simp [hc]

/-- Outcome of option parsing: either `main` exits during the
`getopt_long` loop (with the output and status it produced), or the loop
finishes and `main` proceeds with the parsed verbosity and devices flag. -/
inductive POut where
  | exitP (out : String) (msgs : List Msg) (code : Nat)
  | runP (verbose : Nat) (sd : Bool)
  deriving DecidableEq

/-- The `switch(r)` of the parse loop (lines 88-113): `-h` prints the
usage text to standard output and exits 0, `-V` prints the version line
and exits 0, `-d` sets the devices flag, `-v` bumps verbosity up to
`VERBOSE_MAX`, and an unrecognized option prints the usage text to
standard output and exits 1 (the `default` branch; `getopt_long` itself
writes its diagnostic to standard error). -/
def procOpts (pv : String) : Nat → Bool → List OptEv → POut
  | vb, sd, [] => .runP vb sd
  | vb, sd, e :: rest =>
    match e with
    | .h => .exitP helpText [] 0
    | .V => .exitP (versionText pv) [] 0
    | .d => procOpts pv vb true rest
    | .v => procOpts pv (if vb < VERBOSE_MAX then vb + 1 else vb) sd rest
    | .unknown s => .exitP helpText [.getoptDiag s] 1

/-- The whole program: parse options, then run the enumeration; the result
is (standard output, standard error lines, exit status). -/
def program (pv : String) (args : List String) (lib : Lib) :
    String × List Msg × Nat :=
  match procOpts pv 0 false (argEvents args) with
  | .exitP out msgs code => (out, msgs, code)
  | .runP vb sd =>
    let r := mainBody vb sd lib
    (r.1.out, r.1.msgs, r.2)

/-- A library oracle for which every call succeeds. -/
def libOk : Lib := ⟨0, 0, [], 0, 0, fun _ => "ok"⟩

/-! ### C2: behaviour on an unrecognized option -/

set_option maxRecDepth 16384 in
/-- C2 counterexample: with the unrecognized option `-x` the program exits
with failure, but the usage text is NOT among the standard-error lines (it
goes to standard output: `print_help` uses `printf`). -/
theorem c2_usage_not_on_stderr :
    ¬ (helpText ∈ (program "1.0" ["-x"] libOk).2.1.map (Msg.render libOk.statusStr) ∧
        (program "1.0" ["-x"] libOk).2.2 = 1) := by
  decide

set_option maxRecDepth 16384 in
/-- C2 amended: on an unrecognized option the program prints the usage
text to standard output (not standard error) and exits with failure
status; with argument `-x` the whole output is exactly the usage text on
standard output, `getopt_long`'s diagnostic on standard error, and exit
status 1. -/
theorem c2_unknown_option_behavior :
    (∀ (pv : String) (vb : Nat) (sd : Bool) (s : String) (rest : List OptEv),
      procOpts pv vb sd (.unknown s :: rest) = .exitP helpText [.getoptDiag s] 1) ∧
    program "1.0" ["-x"] libOk = (helpText, [.getoptDiag "-x"], 1) :=
  ⟨fun _ _ _ _ _ => rfl, by decide⟩

/-! ### C8: verbosity is the minimum of the `-v` count and 2 -/

def vCount (evs : List OptEv) : Nat := evs.count .v

def benignOpt : OptEv → Bool
  | .d => true
  | .v => true
  | _ => false

theorem procOpts_benign : ∀ (pv : String) (evs : List OptEv) (vb : Nat) (sd : Bool),
    evs.all benignOpt = true → vb ≤ 2 →
    ∃ sd2, procOpts pv vb sd evs = .runP (min (vb + vCount evs) 2) sd2 := by
  intro pv evs
  induction evs with
  | nil =>
    intro vb sd _ h
    exact ⟨sd, by simp [procOpts, vCount, Nat.min_eq_left h]⟩
  | cons e rest ih =>
    intro vb sd hb h
    rw [List.all_cons, Bool.and_eq_true] at hb
    cases e with
    | d =>
      have step : procOpts pv vb sd (OptEv.d :: rest) = procOpts pv vb true rest := rfl
      obtain ⟨sd2, h2⟩ := ih vb true hb.2 h
      refine ⟨sd2, ?_⟩
      rw [step, h2]
      have : vCount (OptEv.d :: rest) = vCount rest := by
        simp [vCount, List.count_cons]
      rw [this]
    | v =>
      have step : procOpts pv vb sd (OptEv.v :: rest)
          = procOpts pv (if vb < VERBOSE_MAX then vb + 1 else vb) sd rest := rfl
      have hcnt : vCount (OptEv.v :: rest) = vCount rest + 1 := by
        simp [vCount, List.count_cons]
      by_cases hv : vb < VERBOSE_MAX
      · obtain ⟨sd2, h2⟩ := ih (vb + 1) sd hb.2 (by simp [VERBOSE_MAX] at hv; omega)
        refine ⟨sd2, ?_⟩
        rw [step, if_pos hv, h2, hcnt]
        congr 1
        omega
      · obtain ⟨sd2, h2⟩ := ih vb sd hb.2 h
        refine ⟨sd2, ?_⟩
        rw [step, if_neg hv, h2, hcnt]
        congr 1
        simp [VERBOSE_MAX] at hv
        omega
    | h => simp [benignOpt] at hb
    | V => simp [benignOpt] at hb
    | unknown s => simp [benignOpt] at hb

theorem argEvents_repl_v : ∀ (k : Nat),
    argEvents (List.replicate k "-v") = List.replicate k OptEv.v := by
  intro k
  induction k with
  | zero => rfl
  | succ k ih =>
    rw [List.replicate_succ, List.replicate_succ]
    show OptEv.v :: argEvents (List.replicate k "-v") = OptEv.v :: List.replicate k OptEv.v
    rw [ih]

theorem procOpts_repl_v : ∀ (pv : String) (k vb : Nat) (sd : Bool), vb ≤ 2 →
    procOpts pv vb sd (List.replicate k OptEv.v) = .runP (min (vb + k) 2) sd := by
  intro pv k
  induction k with
  | zero =>
    intro vb sd h
    simp [procOpts, Nat.min_eq_left h]
  | succ k ih =>
    intro vb sd h
    rw [List.replicate_succ]
    have step : procOpts pv vb sd (OptEv.v :: List.replicate k OptEv.v)
        = procOpts pv (if vb < VERBOSE_MAX then vb + 1 else vb) sd
            (List.replicate k OptEv.v) := rfl
    rw [step]
    by_cases hv : vb < VERBOSE_MAX
    · rw [if_pos hv, ih (vb + 1) sd (by simp [VERBOSE_MAX] at hv; omega)]
      congr 1
      omega
    · rw [if_neg hv, ih vb sd h]
      congr 1
      simp [VERBOSE_MAX] at hv
      omega

/-- C8: over any command line whose options are only `-d`/`-v`, the
parsed verbosity is `min(k, 2)` where `k` is the number of `-v`
occurrences; in particular `k` words `-v` parse to verbosity `min(k, 2)`,
and the parsed verbosity is monotonically non-decreasing in `k` and
constant from `k = 2` on. -/
theorem c8_verbosity_min : ∀ (pv : String) (evs : List OptEv),
    evs.all benignOpt = true →
    (∃ sd, procOpts pv 0 false evs = POut.runP (min (vCount evs) 2) sd) ∧
    (∀ k, procOpts pv 0 false (argEvents (List.replicate k "-v"))
      = POut.runP (min k 2) false) ∧
    (∀ evs2, evs2.all benignOpt = true → vCount evs ≤ vCount evs2 →
      min (vCount evs) 2 ≤ min (vCount evs2) 2) := by
  intro pv evs hb
  refine ⟨?_, ?_, ?_⟩
  · simpa using procOpts_benign pv evs 0 false hb (by omega)
  · intro k
    rw [argEvents_repl_v k, procOpts_repl_v pv k 0 false (by omega)]
    simp
  · intro evs2 _ h
    omega

/-- Witness for C8 at the concrete stream `-v -v -v` (three `-v` flags,
verbosity 2). -/
theorem c8_verbosity_min_witness :
    ∃ sd, procOpts "1.0" 0 false [OptEv.v, OptEv.v, OptEv.v]
      = POut.runP (min (vCount [OptEv.v, OptEv.v, OptEv.v]) 2) sd :=
  (c8_verbosity_min "1.0" [OptEv.v, OptEv.v, OptEv.v] (by decide)).1

/-! ### C10: non-option words are silently ignored -/

/-- C10: inserting a word that does not start with `-` anywhere into the
argument vector changes neither the output nor the exit status (GNU
`getopt_long` permutes such words past the options, and the program never
reads the remaining positional arguments). -/
theorem c10_positional_ignored : ∀ (pv : String) (lib : Lib)
    (pre post : List String) (w : String),
    w.data.head? ≠ some '-' →
    program pv (pre ++ w :: post) lib = program pv (pre ++ post) lib := by
  intro pv lib pre post w hw
  have hA : argEvents (pre ++ w :: post) = argEvents (pre ++ post) := by
    induction pre with
    | nil =>
      show argEvents (w :: post) = argEvents post
      rw [argEvents_cons, classify_skip_of_not_dash w hw]
    | cons a rest ih =>
      show argEvents (a :: (rest ++ w :: post)) = argEvents (a :: (rest ++ post))
      rw [argEvents_cons, argEvents_cons, ih]
  simp only [program, hA]

/-- Witness for C10: inserting the word `foo` between `-v` and `-d`. -/
theorem c10_positional_ignored_witness :
    program "1.0" (["-v"] ++ "foo" :: ["-d"]) libOk
      = program "1.0" (["-v"] ++ ["-d"]) libOk :=
  c10_positional_ignored "1.0" libOk ["-v"] ["-d"] "foo" (by decide)

/-! ### Loop decomposition lemmas -/

theorem Eff.seq_assoc (a b c : Eff) : (a.seq b).seq c = a.seq (b.seq c) := by
  simp [Eff.seq, String.append_assoc]

theorem Eff.nil_seq (a : Eff) : Eff.nil.seq a = a := rfl

theorem driverLoop_append (vb : Nat) (sd : Bool) : ∀ (l1 l2 : List DriverB) (k : Nat),
    driverLoop vb sd k (l1 ++ l2)
      = (driverLoop vb sd k l1).seq (driverLoop vb sd (k + l1.length) l2) := by
  intro l1
  induction l1 with
  | nil =>
    intro l2 k
    show driverLoop vb sd k l2 = Eff.nil.seq (driverLoop vb sd (k + 0) l2)
    rw [Eff.nil_seq]
    norm_num
  | cons d rest ih =>
    intro l2 k
    show (driverStep vb sd k d).seq (driverLoop vb sd (k + 1) (rest ++ l2)) = _
    rw [ih l2 (k + 1), ← Eff.seq_assoc]
    have h1 : (driverStep vb sd k d).seq (driverLoop vb sd (k + 1) rest)
        = driverLoop vb sd k (d :: rest) := rfl
    rw [h1]
    have h2 : k + 1 + rest.length = k + (d :: rest).length := by
      simp
      omega
    rw [h2]

/-- The driver-list index carried by an `openDrv` event; the driver open
attempts are exactly the events this extracts. -/
def drvOpenIdx : Ev → Option Nat
  | .openDrv i _ => some i
  | _ => none

theorem deviceLoop_attempts (vb i : Nat) : ∀ (devs : List DeviceB) (j : Nat),
    (deviceLoop vb i j devs).evs.filterMap drvOpenIdx = [] := by
  intro devs
  induction devs with
  | nil => intro j; simp [deviceLoop]
  | cons dev rest ih =>
    intro j
    show ((deviceStep vb i j dev).seq (deviceLoop vb i (j + 1) rest)).evs.filterMap
      drvOpenIdx = []
    rw [Eff.seq_evs, List.filterMap_append, ih (j + 1)]
    by_cases h : dev.openStatus = 0 <;> simp [deviceStep, h, drvOpenIdx]

theorem devicesPart_attempts (vb i : Nat) (d : DriverB) :
    (devicesPart vb i d).evs.filterMap drvOpenIdx = [] := by
  by_cases h : d.devListStatus = 0
  · rw [devicesPart, if_pos h, Eff.seq_evs, List.filterMap_append,
      deviceLoop_attempts vb i d.devices 0]
    simp [drvOpenIdx]
  · rw [devicesPart, if_neg h]
    simp

theorem driverStep_attempts (vb : Nat) (sd : Bool) (i : Nat) (d : DriverB) :
    (driverStep vb sd i d).evs.filterMap drvOpenIdx = [i] := by
  by_cases h : d.openStatus = 0
  · cases sd <;>
      simp [driverStep, h, drvOpenIdx, devicesPart_attempts, List.filterMap_append]
  · simp [driverStep, h, drvOpenIdx]

theorem driverLoop_attempts (vb : Nat) (sd : Bool) : ∀ (ds : List DriverB) (k : Nat),
    (driverLoop vb sd k ds).evs.filterMap drvOpenIdx = List.range' k ds.length := by
  intro ds
  induction ds with
  | nil => intro k; simp [driverLoop]
  | cons d rest ih =>
    intro k
    show ((driverStep vb sd k d).seq (driverLoop vb sd (k + 1) rest)).evs.filterMap
      drvOpenIdx = _
    rw [Eff.seq_evs, List.filterMap_append, driverStep_attempts, ih (k + 1)]
    rfl

/-! ### Standard-error contents of the loop -/

theorem deviceLoop_msgs_no_drvErr (vb i : Nat) (n : String) (c : Int) :
    ∀ (devs : List DeviceB) (j : Nat),
    Msg.openDrvErr n c ∉ (deviceLoop vb i j devs).msgs := by
  intro devs
  induction devs with
  | nil => intro j; simp [deviceLoop]
  | cons dev rest ih =>
    intro j hmem
    rw [show deviceLoop vb i j (dev :: rest)
        = (deviceStep vb i j dev).seq (deviceLoop vb i (j + 1) rest) from rfl,
      Eff.seq_msgs, List.mem_append] at hmem
    cases hmem with
    | inl h1 => by_cases h : dev.openStatus = 0 <;> simp [deviceStep, h] at h1
    | inr h2 => exact ih (j + 1) h2

theorem devicesPart_msgs_no_drvErr (vb i : Nat) (d : DriverB) (n : String) (c : Int) :
    Msg.openDrvErr n c ∉ (devicesPart vb i d).msgs := by
  intro hmem
  by_cases h : d.devListStatus = 0
  · rw [devicesPart, if_pos h, Eff.seq_msgs, List.mem_append] at hmem
    cases hmem with
    | inl h1 => exact deviceLoop_msgs_no_drvErr vb i n c d.devices 0 h1
    | inr h2 => by_cases hf : d.freeDevListStatus = 0 <;> simp [hf] at h2
  · rw [devicesPart, if_neg h] at hmem
    simp at hmem

theorem driverStep_msgs_ok (vb : Nat) (sd : Bool) (i : Nat) (d : DriverB)
    (n : String) (c : Int) (h : d.openStatus = 0) :
    (driverStep vb sd i d).msgs.count (Msg.openDrvErr n c) = 0 := by
  rw [List.count_eq_zero]
  intro hmem
  rw [driverStep, if_pos h] at hmem
  cases sd <;> simp at hmem
  exact devicesPart_msgs_no_drvErr vb i d n c hmem

theorem driverStep_msgs_fail (vb : Nat) (sd : Bool) (i : Nat) (d : DriverB)
    (h : d.openStatus ≠ 0) :
    (driverStep vb sd i d).msgs = [Msg.openDrvErr d.name d.openStatus] := by
  rw [driverStep, if_neg h]

theorem driverLoop_msgs_count_zero (vb : Nat) (sd : Bool) (n : String) (c : Int) :
    ∀ (ds : List DriverB) (k : Nat), (∀ d ∈ ds, d.openStatus = 0) →
    (driverLoop vb sd k ds).msgs.count (Msg.openDrvErr n c) = 0 := by
  intro ds
  induction ds with
  | nil => intro k _; simp [driverLoop]
  | cons d rest ih =>
    intro k hall
    rw [show driverLoop vb sd k (d :: rest)
        = (driverStep vb sd k d).seq (driverLoop vb sd (k + 1) rest) from rfl,
      Eff.seq_msgs, List.count_append,
      driverStep_msgs_ok vb sd k d n c (hall d (by simp)),
      ih (k + 1) (fun d2 h2 => hall d2 (by simp [h2]))]

/-! ### C7: a driver that fails to open is recoverable -/

/-- C7: if the driver `fd` in the list fails to open (and no other driver
fails), exactly one error line naming `fd` is written to standard error
(with the exact `fprintf` text), the enumeration still makes one open
attempt per driver in list order, the driver list is still freed, and —
initialization, list retrieval and finalization succeeding — the exit
status is `EXIT_SUCCESS`. -/
theorem c7_driver_open_failure_recoverable :
    ∀ (vb : Nat) (sd : Bool) (lib : Lib) (pre post : List DriverB) (fd : DriverB),
    lib.initStatus = 0 → lib.getListStatus = 0 → lib.exitStatus = 0 →
    lib.drivers = pre ++ fd :: post →
    fd.openStatus ≠ 0 →
    (∀ d ∈ pre, d.openStatus = 0) →
    (∀ d ∈ post, d.openStatus = 0) →
    (mainBody vb sd lib).2 = 0 ∧
    (mainBody vb sd lib).1.msgs.count (Msg.openDrvErr fd.name fd.openStatus) = 1 ∧
    Msg.render lib.statusStr (Msg.openDrvErr fd.name fd.openStatus)
      = "Error opening driver `" ++ fd.name ++ "`: " ++ lib.statusStr fd.openStatus
        ++ " (" ++ toString fd.openStatus ++ ")" ∧
    Ev.freeDrvList ∈ (mainBody vb sd lib).1.evs ∧
    (mainBody vb sd lib).1.evs.filterMap drvOpenIdx = List.range lib.drivers.length := by
  intro vb sd lib pre post fd h0 hg he hd hf hpre hpost
  have hmb : mainBody vb sd lib
      = ((driverLoop vb sd 0 lib.drivers).seq
          ⟨"",
            (if lib.freeListStatus = 0 then [] else [.freeDrvListErr lib.freeListStatus]),
            [.freeDrvList]⟩, 0) := by
    simp [mainBody, h0, hg, he]
  refine ⟨by rw [hmb], ?_, rfl, ?_, ?_⟩
  · rw [hmb]
    simp only [Eff.seq_msgs, List.count_append]
    rw [hd, driverLoop_append vb sd pre (fd :: post) 0]
    simp only [Eff.seq_msgs, List.count_append]
    rw [driverLoop_msgs_count_zero vb sd fd.name fd.openStatus pre 0 hpre]
    rw [show driverLoop vb sd (0 + pre.length) (fd :: post)
        = (driverStep vb sd (0 + pre.length) fd).seq
            (driverLoop vb sd (0 + pre.length + 1) post) from rfl,
      Eff.seq_msgs, List.count_append,
      driverStep_msgs_fail vb sd (0 + pre.length) fd hf,
      driverLoop_msgs_count_zero vb sd fd.name fd.openStatus post
        (0 + pre.length + 1) hpost]
    have hfr : (if lib.freeListStatus = 0 then ([] : List Msg)
        else [.freeDrvListErr lib.freeListStatus]).count
          (Msg.openDrvErr fd.name fd.openStatus) = 0 := by
      by_cases hfree : lib.freeListStatus = 0 <;> simp [hfree]
    rw [hfr]
    simp
  · rw [hmb]
    simp
  · rw [hmb]
    simp only [Eff.seq_evs, List.filterMap_append]
    rw [driverLoop_attempts vb sd lib.drivers 0]
    simp [drvOpenIdx, List.range_eq_range']

/-- A concrete driver that fails to open, and a library oracle exposing
exactly that driver. -/
def fdC7 : DriverB := ⟨"bad", -2, infoC3, 0, [], 0⟩

def libC7 : Lib := ⟨0, 0, [fdC7], 0, 0, fun _ => "no such driver"⟩

/-- Witness for C7 at a concrete one-driver list whose driver fails to
open. -/
theorem c7_driver_open_failure_recoverable_witness :
    (mainBody 0 false libC7).2 = 0 ∧
    (mainBody 0 false libC7).1.msgs.count (Msg.openDrvErr fdC7.name fdC7.openStatus) = 1 ∧
    Msg.render libC7.statusStr (Msg.openDrvErr fdC7.name fdC7.openStatus)
      = "Error opening driver `" ++ fdC7.name ++ "`: " ++ libC7.statusStr fdC7.openStatus
        ++ " (" ++ toString fdC7.openStatus ++ ")" ∧
    Ev.freeDrvList ∈ (mainBody 0 false libC7).1.evs ∧
    (mainBody 0 false libC7).1.evs.filterMap drvOpenIdx
      = List.range libC7.drivers.length :=
  c7_driver_open_failure_recoverable 0 false libC7 [] [] fdC7 rfl rfl rfl rfl
    (by decide) (by simp) (by simp)

/-! ### C5: open/close discipline of the enumeration loop

The claim as stated is checked by `handleDiscipline`: every successful
open is closed before the next open attempt, and a failed open is never
followed by a close of that handle.  With `--devices` the driver handle
stays open across the device open attempts, so the stated claim fails; the
amended discipline is captured by per-handle close counts plus a strict
ordering of events under the lexicographic key `key`. -/

def isOpenEv : Ev → Bool
  | .openDrv _ _ => true
  | .openDev _ _ _ => true
  | _ => false

def openOk : Ev → Bool
  | .openDrv _ ok => ok
  | .openDev _ _ ok => ok
  | _ => false

def matchingClose : Ev → Ev → Bool
  | .openDrv i _, .closeDrv i2 => i == i2
  | .openDev i j _, .closeDev i2 j2 => i == i2 && j == j2
  | _, _ => false

def closedBeforeNextOpen (e : Ev) : List Ev → Bool
  | [] => false
  | x :: rest =>
    if matchingClose e x then true
    else if isOpenEv x then false
    else closedBeforeNextOpen e rest

/-- The claim's per-handle discipline over an event trace: each
successfully opened handle is closed before the next open attempt, and a
failed open is never followed by a close of that handle. -/
def handleDiscipline : List Ev → Bool
  | [] => true
  | e :: rest =>
    (if isOpenEv e then
      (if openOk e then closedBeforeNextOpen e rest
       else rest.all fun x => !matchingClose e x)
     else true) && handleDiscipline rest

/-- One driver with one device, both opening successfully. -/
def dsC5 : List DriverB := [⟨"drv", 0, infoC3, 0, [⟨"/dev0", 0, ⟨"n", "s"⟩⟩], 0⟩]

/-- C5 counterexample: with `--devices`, a driver that opens successfully
is not closed before the next open attempt — the device open happens while
the driver handle is still open — so the stated per-handle discipline is
violated even though the open attempts are exactly the list indices in
order. -/
theorem c5_driver_not_closed_before_device_open :
    ¬ ((driverLoop 0 true 0 dsC5).evs.filterMap drvOpenIdx = List.range dsC5.length ∧
        handleDiscipline (driverLoop 0 true 0 dsC5).evs = true) := by
  decide

def opensAt : List DriverB → Nat → Bool
  | [], _ => false
  | d :: _, 0 => d.openStatus == 0
  | _ :: t, i + 1 => opensAt t i

def devListOkAt : List DriverB → Nat → Bool
  | [], _ => false
  | d :: _, 0 => d.devListStatus == 0
  | _ :: t, i + 1 => devListOkAt t i

def devOpensAtL : List DeviceB → Nat → Bool
  | [], _ => false
  | dev :: _, 0 => dev.openStatus == 0
  | _ :: t, j + 1 => devOpensAtL t j

def devOpensAt : List DriverB → Nat → Nat → Bool
  | [], _, _ => false
  | d :: _, 0, j => devOpensAtL d.devices j
  | _ :: t, i + 1, j => devOpensAt t i j

/-- Sort key of an event within the trace: driver index first, then the
phase within that driver's block (open = 0, device events = 1, device-list
free = 2, close = 3), then the position within the device sub-block.
`freeDrvList` is emitted only after the loop and needs no key. -/
def key : Ev → Nat × Nat × Nat
  | .openDrv i _ => (i, 0, 0)
  | .openDev i j _ => (i, 1, 2 * j + 1)
  | .closeDev i j => (i, 1, 2 * j + 2)
  | .freeDevList i => (i, 2, 0)
  | .closeDrv i => (i, 3, 0)
  | .freeDrvList => (0, 0, 0)

def keyLt (a b : Nat × Nat × Nat) : Prop :=
  a.1 < b.1 ∨ (a.1 = b.1 ∧ (a.2.1 < b.2.1 ∨ (a.2.1 = b.2.1 ∧ a.2.2 < b.2.2)))

def evLt (e f : Ev) : Prop := keyLt (key e) (key f)

theorem evLt_of_fst_lt {e f : Ev} (h : (key e).1 < (key f).1) : evLt e f := Or.inl h

theorem evLt_of_snd_lt {e f : Ev} (h1 : (key e).1 = (key f).1)
    (h : (key e).2.1 < (key f).2.1) : evLt e f := Or.inr ⟨h1, Or.inl h⟩

theorem evLt_of_trd_lt {e f : Ev} (h1 : (key e).1 = (key f).1)
    (h2 : (key e).2.1 = (key f).2.1) (h : (key e).2.2 < (key f).2.2) : evLt e f :=
  Or.inr ⟨h1, Or.inr ⟨h2, h⟩⟩

theorem deviceLoop_key (vb i : Nat) : ∀ (devs : List DeviceB) (m : Nat),
    ∀ e ∈ (deviceLoop vb i m devs).evs,
    (key e).1 = i ∧ (key e).2.1 = 1 ∧ 2 * m + 1 ≤ (key e).2.2 := by
  intro devs
  induction devs with
  | nil => intro m e he; simp [deviceLoop] at he
  | cons dev rest ih =>
    intro m e he
    rw [show deviceLoop vb i m (dev :: rest)
        = (deviceStep vb i m dev).seq (deviceLoop vb i (m + 1) rest) from rfl,
      Eff.seq_evs, List.mem_append] at he
    cases he with
    | inl h1 =>
      by_cases h : dev.openStatus = 0 <;> simp [deviceStep, h] at h1
      · rcases h1 with h1 | h1 <;> subst h1
        · exact ⟨rfl, rfl, Nat.le_refl _⟩
        · exact ⟨rfl, rfl, Nat.le_succ _⟩
      · subst h1
        exact ⟨rfl, rfl, Nat.le_refl _⟩
    | inr h2 =>
      obtain ⟨k1, k2, k3⟩ := ih (m + 1) e h2
      exact ⟨k1, k2, by omega⟩

theorem deviceLoop_pw (vb i : Nat) : ∀ (devs : List DeviceB) (m : Nat),
    List.Pairwise evLt (deviceLoop vb i m devs).evs := by
  intro devs
  induction devs with
  | nil => intro m; simp [deviceLoop]
  | cons dev rest ih =>
    intro m
    rw [show deviceLoop vb i m (dev :: rest)
        = (deviceStep vb i m dev).seq (deviceLoop vb i (m + 1) rest) from rfl,
      Eff.seq_evs, List.pairwise_append]
    refine ⟨?_, ih (m + 1), ?_⟩
    · by_cases h : dev.openStatus = 0
      · rw [show (deviceStep vb i m dev).evs
            = [Ev.openDev i m true, Ev.closeDev i m] by simp [deviceStep, h]]
        exact List.pairwise_cons.mpr
          ⟨fun b hb => by
            rw [List.mem_singleton] at hb
            subst hb
            exact evLt_of_trd_lt rfl rfl (Nat.lt_succ_self _),
          List.pairwise_singleton _ _⟩
      · rw [show (deviceStep vb i m dev).evs
            = [Ev.openDev i m false] by simp [deviceStep, h]]
        exact List.pairwise_singleton _ _
    · intro a ha b hb
      obtain ⟨k1, k2, k3⟩ := deviceLoop_key vb i rest (m + 1) b hb
      by_cases h : dev.openStatus = 0 <;> simp [deviceStep, h] at ha
      · rcases ha with ha | ha <;> subst ha
        · refine evLt_of_trd_lt k1.symm k2.symm ?_
          show 2 * m + 1 < (key b).2.2
          omega
        · refine evLt_of_trd_lt k1.symm k2.symm ?_
          show 2 * m + 2 < (key b).2.2
          omega
      · subst ha
        refine evLt_of_trd_lt k1.symm k2.symm ?_
        show 2 * m + 1 < (key b).2.2
        omega

theorem devicesPart_key (vb i : Nat) (d : DriverB) :
    ∀ e ∈ (devicesPart vb i d).evs,
    (key e).1 = i ∧ 1 ≤ (key e).2.1 ∧ (key e).2.1 ≤ 2 := by
  intro e he
  by_cases h : d.devListStatus = 0
  · rw [devicesPart, if_pos h, Eff.seq_evs, List.mem_append] at he
    cases he with
    | inl h1 =>
      obtain ⟨k1, k2, _⟩ := deviceLoop_key vb i d.devices 0 e h1
      exact ⟨k1, by omega, by omega⟩
    | inr h2 =>
      simp at h2
      subst h2
      exact ⟨rfl, by simp [key], by simp [key]⟩
  · rw [devicesPart, if_neg h] at he
    simp at he

theorem devicesPart_pw (vb i : Nat) (d : DriverB) :
    List.Pairwise evLt (devicesPart vb i d).evs := by
  by_cases h : d.devListStatus = 0
  · rw [devicesPart, if_pos h, Eff.seq_evs, List.pairwise_append]
    refine ⟨deviceLoop_pw vb i d.devices 0, by simp, ?_⟩
    intro a ha b hb
    simp at hb
    subst hb
    obtain ⟨k1, k2, _⟩ := deviceLoop_key vb i d.devices 0 a ha
    refine evLt_of_snd_lt ?_ ?_
    · show (key a).1 = i
      exact k1
    · show (key a).2.1 < 2
      omega
  · rw [devicesPart, if_neg h]
    simp

theorem driverStep_key (vb : Nat) (sd : Bool) (i : Nat) (d : DriverB) :
    ∀ e ∈ (driverStep vb sd i d).evs, (key e).1 = i := by
  intro e he
  by_cases h : d.openStatus = 0
  · rw [driverStep, if_pos h] at he
    simp at he
    rcases he with he | he | he
    · subst he; rfl
    · cases sd with
      | false => simp at he
      | true => exact (devicesPart_key vb i d e (by simpa using he)).1
    · subst he; rfl
  · rw [driverStep, if_neg h] at he
    simp at he
    subst he
    rfl

theorem driverStep_pw (vb : Nat) (sd : Bool) (i : Nat) (d : DriverB) :
    List.Pairwise evLt (driverStep vb sd i d).evs := by
  by_cases h : d.openStatus = 0
  · rw [driverStep, if_pos h]
    simp only [Eff.seq_evs]
    rw [List.singleton_append, List.pairwise_cons]
    constructor
    · intro b hb
      rw [List.mem_append] at hb
      cases hb with
      | inl h1 =>
        obtain ⟨hk1, hk2, hk3⟩ := devicesPart_key vb i d b (by
          cases sd with
          | false => simp at h1
          | true => simpa using h1)
        refine evLt_of_snd_lt hk1.symm ?_
        show 0 < (key b).2.1
        omega
      | inr h2 =>
        rw [List.mem_singleton] at h2
        subst h2
        refine evLt_of_snd_lt rfl ?_
        show (0 : Nat) < 3
        omega
    · rw [List.pairwise_append]
      refine ⟨?_, List.pairwise_singleton _ _, ?_⟩
      · cases sd with
        | false => simp
        | true => simpa using devicesPart_pw vb i d
      · intro a ha b hb
        rw [List.mem_singleton] at hb
        subst hb
        obtain ⟨hk1, hk2, hk3⟩ := devicesPart_key vb i d a (by
          cases sd with
          | false => simp at ha
          | true => simpa using ha)
        refine evLt_of_snd_lt hk1 ?_
        show (key a).2.1 < 3
        omega
  · rw [driverStep, if_neg h]
    simp

theorem driverLoop_key (vb : Nat) (sd : Bool) : ∀ (ds : List DriverB) (k : Nat),
    ∀ e ∈ (driverLoop vb sd k ds).evs, k ≤ (key e).1 := by
  intro ds
  induction ds with
  | nil => intro k e he; simp [driverLoop] at he
  | cons d rest ih =>
    intro k e he
    rw [show driverLoop vb sd k (d :: rest)
        = (driverStep vb sd k d).seq (driverLoop vb sd (k + 1) rest) from rfl,
      Eff.seq_evs, List.mem_append] at he
    cases he with
    | inl h1 => exact (driverStep_key vb sd k d e h1).ge
    | inr h2 => exact le_trans (by omega) (ih (k + 1) e h2)

theorem driverLoop_pw (vb : Nat) (sd : Bool) : ∀ (ds : List DriverB) (k : Nat),
    List.Pairwise evLt (driverLoop vb sd k ds).evs := by
  intro ds
  induction ds with
  | nil => intro k; simp [driverLoop]
  | cons d rest ih =>
    intro k
    rw [show driverLoop vb sd k (d :: rest)
        = (driverStep vb sd k d).seq (driverLoop vb sd (k + 1) rest) from rfl,
      Eff.seq_evs, List.pairwise_append]
    refine ⟨driverStep_pw vb sd k d, ih (k + 1), ?_⟩
    intro a ha b hb
    have hak := driverStep_key vb sd k d a ha
    have hbk := driverLoop_key vb sd rest (k + 1) b hb
    exact Or.inl (by omega)

theorem driverStep_count_closeDrv (vb : Nat) (sd : Bool) (k : Nat) (d : DriverB) :
    (driverStep vb sd k d).evs.count (Ev.closeDrv k)
      = if d.openStatus = 0 then 1 else 0 := by
  by_cases h : d.openStatus = 0
  · rw [driverStep, if_pos h]
    simp only [Eff.seq_evs]
    have hmid : (if sd then devicesPart vb k d else Eff.nil).evs.count (Ev.closeDrv k)
        = 0 := by
      rw [List.count_eq_zero]
      intro hmem
      cases sd with
      | false => simp at hmem
      | true =>
        have := (devicesPart_key vb k d _ (by simpa using hmem)).2.2
        simp [key] at this
    simp [List.count_append, List.count_cons, hmid, h]
  · rw [driverStep, if_neg h]
    simp [h]

theorem driverStep_count_closeDrv_ne (vb : Nat) (sd : Bool) (k : Nat) (d : DriverB)
    (x : Nat) (hx : x ≠ k) :
    (driverStep vb sd k d).evs.count (Ev.closeDrv x) = 0 := by
  rw [List.count_eq_zero]
  intro hmem
  have := driverStep_key vb sd k d _ hmem
  simp [key] at this
  exact hx this

theorem driverLoop_count_closeDrv (vb : Nat) (sd : Bool) :
    ∀ (ds : List DriverB) (k i : Nat),
    (driverLoop vb sd k ds).evs.count (Ev.closeDrv (k + i))
      = if opensAt ds i then 1 else 0 := by
  intro ds
  induction ds with
  | nil => intro k i; simp [driverLoop, opensAt]
  | cons d rest ih =>
    intro k i
    rw [show driverLoop vb sd k (d :: rest)
        = (driverStep vb sd k d).seq (driverLoop vb sd (k + 1) rest) from rfl,
      Eff.seq_evs, List.count_append]
    cases i with
    | zero =>
      have htail : (driverLoop vb sd (k + 1) rest).evs.count (Ev.closeDrv (k + 0))
          = 0 := by
        rw [List.count_eq_zero]
        intro hmem
        have := driverLoop_key vb sd rest (k + 1) _ hmem
        simp [key] at this
      rw [htail, show k + 0 = k from rfl, driverStep_count_closeDrv vb sd k d]
      by_cases h : d.openStatus = 0 <;> simp [opensAt, h]
    | succ i2 =>
      rw [driverStep_count_closeDrv_ne vb sd k d (k + (i2 + 1)) (by omega),
        show k + (i2 + 1) = (k + 1) + i2 by omega, ih (k + 1) i2]
      simp [opensAt]

theorem deviceLoop_count_closeDev (vb i : Nat) :
    ∀ (devs : List DeviceB) (m j : Nat),
    (deviceLoop vb i m devs).evs.count (Ev.closeDev i (m + j))
      = if devOpensAtL devs j then 1 else 0 := by
  intro devs
  induction devs with
  | nil => intro m j; simp [deviceLoop, devOpensAtL]
  | cons dev rest ih =>
    intro m j
    rw [show deviceLoop vb i m (dev :: rest)
        = (deviceStep vb i m dev).seq (deviceLoop vb i (m + 1) rest) from rfl,
      Eff.seq_evs, List.count_append]
    cases j with
    | zero =>
      have htail : (deviceLoop vb i (m + 1) rest).evs.count (Ev.closeDev i (m + 0))
          = 0 := by
        rw [List.count_eq_zero]
        intro hmem
        have := (deviceLoop_key vb i rest (m + 1) _ hmem).2.2
        simp [key] at this
        omega
      rw [htail, show m + 0 = m from rfl]
      by_cases h : dev.openStatus = 0 <;> simp [deviceStep, h, devOpensAtL, List.count_cons]
    | succ j2 =>
      have hstep : (deviceStep vb i m dev).evs.count (Ev.closeDev i (m + (j2 + 1)))
          = 0 := by
        rw [List.count_eq_zero]
        intro hmem
        by_cases h : dev.openStatus = 0 <;> simp [deviceStep, h] at hmem
      rw [hstep, show m + (j2 + 1) = (m + 1) + j2 by omega, ih (m + 1) j2]
      simp [devOpensAtL]

theorem devicesPart_count_closeDev (vb i : Nat) (d : DriverB) (j : Nat) :
    (devicesPart vb i d).evs.count (Ev.closeDev i j)
      = if (d.devListStatus == 0) && devOpensAtL d.devices j then 1 else 0 := by
  by_cases h : d.devListStatus = 0
  · rw [devicesPart, if_pos h, Eff.seq_evs, List.count_append]
    have h0 := deviceLoop_count_closeDev vb i d.devices 0 j
    rw [Nat.zero_add] at h0
    rw [h0]
    simp [h]
  · rw [devicesPart, if_neg h]
    simp [h]

theorem driverStep_count_closeDev (vb : Nat) (sd : Bool) (k : Nat) (d : DriverB)
    (j : Nat) :
    (driverStep vb sd k d).evs.count (Ev.closeDev k j)
      = if sd && (d.openStatus == 0) && (d.devListStatus == 0)
          && devOpensAtL d.devices j then 1 else 0 := by
  by_cases h : d.openStatus = 0
  · rw [driverStep, if_pos h]
    simp only [Eff.seq_evs]
    cases sd with
    | false => simp [h]
    | true =>
      have hdp := devicesPart_count_closeDev vb k d j
      simp [List.count_cons, List.count_append, hdp, h]
  · rw [driverStep, if_neg h]
    have : (d.openStatus == 0) = false := by simp [h]
    simp [h, this]

theorem driverStep_count_closeDev_ne (vb : Nat) (sd : Bool) (k : Nat) (d : DriverB)
    (x j : Nat) (hx : x ≠ k) :
    (driverStep vb sd k d).evs.count (Ev.closeDev x j) = 0 := by
  rw [List.count_eq_zero]
  intro hmem
  have := driverStep_key vb sd k d _ hmem
  simp [key] at this
  exact hx this

theorem driverLoop_count_closeDev (vb : Nat) (sd : Bool) :
    ∀ (ds : List DriverB) (k i j : Nat),
    (driverLoop vb sd k ds).evs.count (Ev.closeDev (k + i) j)
      = if sd && opensAt ds i && devListOkAt ds i && devOpensAt ds i j
        then 1 else 0 := by
  intro ds
  induction ds with
  | nil => intro k i j; simp [driverLoop, opensAt, devListOkAt, devOpensAt]
  | cons d rest ih =>
    intro k i j
    rw [show driverLoop vb sd k (d :: rest)
        = (driverStep vb sd k d).seq (driverLoop vb sd (k + 1) rest) from rfl,
      Eff.seq_evs, List.count_append]
    cases i with
    | zero =>
      have htail : (driverLoop vb sd (k + 1) rest).evs.count (Ev.closeDev (k + 0) j)
          = 0 := by
        rw [List.count_eq_zero]
        intro hmem
        have := driverLoop_key vb sd rest (k + 1) _ hmem
        simp [key] at this
      rw [htail, show k + 0 = k from rfl, driverStep_count_closeDev vb sd k d j]
      simp [opensAt, devListOkAt, devOpensAt]
    | succ i2 =>
      rw [driverStep_count_closeDev_ne vb sd k d (k + (i2 + 1)) j (by omega),
        show k + (i2 + 1) = (k + 1) + i2 by omega, ih (k + 1) i2 j]
      simp [opensAt, devListOkAt, devOpensAt]

/-- C5 amended: for every driver list, the loop makes exactly one driver
open attempt per list entry, in list order; a successfully opened driver
handle is closed exactly once and a failed one never; a device handle is
closed exactly once when its open succeeded (and its driver's device list
was being enumerated) and never otherwise; and the events are strictly
ordered by `key`, so every device handle is closed before the next open
attempt and every driver handle is closed after its device enumeration but
before the next driver open attempt. -/
theorem c5_open_close_discipline : ∀ (vb : Nat) (sd : Bool) (ds : List DriverB),
    (driverLoop vb sd 0 ds).evs.filterMap drvOpenIdx = List.range ds.length ∧
    (∀ i, (driverLoop vb sd 0 ds).evs.count (Ev.closeDrv i)
      = if opensAt ds i then 1 else 0) ∧
    (∀ i j, (driverLoop vb sd 0 ds).evs.count (Ev.closeDev i j)
      = if sd && opensAt ds i && devListOkAt ds i && devOpensAt ds i j
        then 1 else 0) ∧
    List.Pairwise evLt (driverLoop vb sd 0 ds).evs := by
  intro vb sd ds
  refine ⟨?_, ?_, ?_, driverLoop_pw vb sd ds 0⟩
  · rw [driverLoop_attempts vb sd ds 0, List.range_eq_range']
  · intro i
    have := driverLoop_count_closeDrv vb sd ds 0 i
    rwa [Nat.zero_add] at this
  · intro i j
    have := driverLoop_count_closeDev vb sd ds 0 i j
    rwa [Nat.zero_add] at this

/-! ### C1: URL buffer capacity (lsopentmf.c lines 125-141 and 181-186)

The URL buffer starts with `url_size = 1024`.  Before the driver URL is
written, lines 132-136 double the capacity — once — when
`10 + strlen(name) >= url_size`.  The driver write
(`url[0]='\0'; strcat(url,"opentmf://"); strcat(url,name)`) stores
`11 + strlen(name)` bytes (10 scheme characters, the name, the
terminating NUL).  For each device (lines 181-186) the path is appended at
`url_base_len = 10 + strlen(name)` with no capacity check at all, storing
`11 + strlen(name) + strlen(path)` bytes.  `urlWritesOk` replays exactly
this capacity arithmetic over the driver list and checks that every write
fits; device writes happen only when devices are shown, the driver opened
and its device list was obtained. -/

def capStep (cap nameLen : Nat) : Nat :=
  if 10 + nameLen ≥ cap then cap * 2 else cap

/-- The capacity check over the lengths of the identifiers: per driver,
grow once as lines 132-136 do, then require the driver write and every
device write of that iteration to fit. -/
def urlCapsOk : Nat → List (Nat × List Nat) → Bool
  | _, [] => true
  | cap, (n, ps) :: rest =>
    let cap2 := capStep cap n
    decide (11 + n ≤ cap2) &&
      ps.all (fun p => decide (11 + n + p ≤ cap2)) &&
      urlCapsOk cap2 rest

/-- `urlCapsOk` instantiated at a driver list: device paths take part only
when devices are shown, the driver opens and its device list is
obtained. -/
def urlWritesOk (sd : Bool) (cap : Nat) (ds : List DriverB) : Bool :=
  urlCapsOk cap (ds.map fun d =>
    (d.name.length,
     if sd && (d.openStatus == 0) && (d.devListStatus == 0) then
       d.devices.map (fun dev => dev.path.length)
     else []))

/-- A driver whose name is 2038 characters long: one doubling of the
initial 1024-byte buffer yields 2048 bytes, but the driver URL needs
2049. -/
def drvLongName : DriverB :=
  ⟨String.mk (List.replicate 2038 'a'), 0, infoC3, 0, [], 0⟩

/-- A driver with a one-character name and a device path of 1013
characters: no growth is triggered (or even attempted) and the device URL
needs 1025 of the 1024 bytes. -/
def drvLongDev : DriverB :=
  ⟨"a", 0, infoC3, 0, [⟨String.mk (List.replicate 1013 'p'), 0, ⟨"n", "s"⟩⟩], 0⟩

/-- C1 fails on the code: the buffer is doubled at most once per driver
and never grown before a device append, so both a 2038-character driver
name (2049 bytes needed, 2048 available after the single doubling) and a
1013-character device path under a one-character driver name (1025 bytes
needed, 1024 available, no check at all) write past the end of the
buffer. -/
theorem c1_url_overflow :
    capStep 1024 2038 = 2048 ∧
    urlCapsOk 1024 [(2038, [])] = false ∧
    urlCapsOk 1024 [(1, [1013])] = false ∧
    urlWritesOk false 1024 [drvLongName] = false ∧
    urlWritesOk true 1024 [drvLongDev] = false := by
  have hmk : ∀ (l : List Char), (String.mk l).length = l.length := fun _ => rfl
  have hn : (String.mk (List.replicate 2038 'a')).length = 2038 := by
    rw [hmk, List.length_replicate]
  have hp : (String.mk (List.replicate 1013 'p')).length = 1013 := by
    rw [hmk, List.length_replicate]
  refine ⟨by decide, by decide, by decide, ?_, ?_⟩
  · have h1 : urlWritesOk false 1024 [drvLongName] = urlCapsOk 1024 [(2038, [])] := by
      show urlCapsOk 1024 [((String.mk (List.replicate 2038 'a')).length, [])] = _
      rw [hn]
    rw [h1]
    decide
  · have h2 : urlWritesOk true 1024 [drvLongDev]
        = urlCapsOk 1024 [(("a" : String).length, [1013])] := by
      show urlCapsOk 1024
        [(("a" : String).length, [(String.mk (List.replicate 1013 'p')).length])] = _
      rw [hp]
    rw [h2]
    decide

end LsOpenTmf
